import Mathlib

/-!
Shallow embedding of `src/server.js`: an in-memory CRUD HTTP service for a
restaurant menu built on express and express-validator.

Request bodies are JSON values.  We model the JSON values that can occur in
a parsed body with `JVal`; a request body (`req.body`) is a `Payload` record
with one optional slot per recognized field (absent field = `none`,
mirroring `undefined`), plus an `id` slot for the extra body field that the
handlers never read.

The express-validator chains in `menuValidators` (server.js lines 47-76) are
modelled per their documented semantics: standard validator.js validators
(`isLength`, `isFloat`, `isIn`, `isBoolean`) receive the value converted to
a string (strings unchanged, numbers printed in decimal, booleans as
"true"/"false", null and undefined as "", arrays joined with ","), while
`isString`/`isArray`/`exists` inspect the raw value.  Every validator of a
chain runs and contributes its own error (`withMessage`), with no bailing;
`handleValidation` (lines 78-86) rejects with status 400 and the collected
`{field, message}` list whenever at least one validator failed.
-/

/-- A parsed JSON value, as it appears in `req.body` after `express.json()`.
Numbers are modelled as exact rationals. -/
inductive JVal : Type where
  | str (s : String)
  | num (q : ℚ)
  | bool (b : Bool)
  | null
  | arr (xs : List JVal)

/-- Decimal rendering of a rational, modelling how JavaScript prints the
number values that occur in payloads (`String(12.99) = "12.99"`,
`String(-1) = "-1"`, trailing zeros dropped).  Rationals that have no
finite decimal expansion (which do not arise from JSON number literals of
moderate size) fall back to a fraction rendering. -/
def decimalStr (q : ℚ) : String :=
  let sign := if q < 0 then "-" else ""
  let n := q.num.natAbs
  let d := q.den
  if d = 1 then sign ++ toString n
  else
    match (List.range 40).find? (fun k => d ∣ 10 ^ (k + 1)) with
    | some k0 =>
      let k := k0 + 1
      let scaled := n * 10 ^ k / d
      let ip := scaled / 10 ^ k
      let fp := scaled % 10 ^ k
      let fpStr := toString fp
      let padded := String.mk (List.replicate (k - fpStr.length) '0') ++ fpStr
      let frac := String.mk (((padded.toList).reverse.dropWhile (fun c => c = '0')).reverse)
      sign ++ toString ip ++ "." ++ frac
    | none => sign ++ toString n ++ "/" ++ toString d

mutual

/-- The string conversion express-validator applies before running a
validator.js validator on a non-string value (its internal `toString`):
strings unchanged, `null`/`undefined` become `""`, booleans their JS
rendering, numbers their decimal rendering, arrays the comma-join of their
elements (JavaScript `Array.prototype.toString`). -/
def jsString : JVal → String
  | .str s => s
  | .num q => decimalStr q
  | .bool true => "true"
  | .bool false => "false"
  | .null => ""
  | .arr xs => String.intercalate "," (jsStringList xs)

def jsStringList : List JVal → List String
  | [] => []
  | v :: vs => jsString v :: jsStringList vs

end

/-- Numeric value of a digit list, most significant first. -/
def digitsVal (ds : List Char) : Nat :=
  ds.foldl (fun a c => a * 10 + (c.toNat - 48)) 0

/-- Exponent part of a JS float literal: optional sign then digits,
consuming the whole rest of the string.  Returns the sign and the digit
value. -/
def parseExpPart (cs : List Char) : Option (Bool × Nat) :=
  let (neg, cs1) :=
    match cs with
    | '-' :: rest => (true, rest)
    | '+' :: rest => (false, rest)
    | _ => (false, cs)
  let (ed, cs2) := cs1.span Char.isDigit
  if ed = [] ∨ cs2 ≠ [] then none
  else some (neg, digitsVal ed)

/-- Assemble the rational value of a parsed float literal from its sign,
mantissa digits and decimal exponent:
`±(ip.fp) * 10^(±e) = ±(ipfp * 10^e) / 10^(|fp| [+ e])`. -/
def assembleFloat (neg : Bool) (ip fp : List Char) (expNeg : Bool) (e : Nat) : ℚ :=
  let mantNum : Nat := digitsVal ip * 10 ^ fp.length + digitsVal fp
  let num : Nat := if expNeg then mantNum else mantNum * 10 ^ e
  let den : Nat := if expNeg then 10 ^ (fp.length + e) else 10 ^ fp.length
  mkRat (if neg then -(num : Int) else (num : Int)) den

/-- Model of validator.js `isFloat` string recognition together with JS
`parseFloat` on the accepted strings: optional sign, integer digits,
optional fraction, optional exponent, at least one digit in the mantissa,
and nothing else in the string.  Returns the parsed rational on success. -/
def parseFloatStrict (s : String) : Option ℚ :=
  let cs := s.toList
  let (neg, cs1) :=
    match cs with
    | '-' :: rest => (true, rest)
    | '+' :: rest => (false, rest)
    | _ => (false, cs)
  let (ip, cs2) := cs1.span Char.isDigit
  let (fp, cs3) :=
    match cs2 with
    | '.' :: rest => rest.span Char.isDigit
    | _ => ([], cs2)
  if ip = [] ∧ fp = [] then none
  else
    match cs3 with
    | [] => some (assembleFloat neg ip fp false 0)
    | 'e' :: rest => (parseExpPart rest).map (fun r => assembleFloat neg ip fp r.1 r.2)
    | 'E' :: rest => (parseExpPart rest).map (fun r => assembleFloat neg ip fp r.1 r.2)
    | _ => none

/-- JavaScript truthiness of a JSON value (`exists({checkFalsy: true})`
fails exactly on falsy values; note an empty array is truthy). -/
def truthy : JVal → Bool
  | .str s => s ≠ ""
  | .num q => q ≠ 0
  | .bool b => b
  | .null => false
  | .arr _ => true

/-- String conversion of an optional body field; an absent field
(`undefined`) converts to `""`. -/
def jsStringOpt : Option JVal → String
  | none => ""
  | some v => jsString v

/-- `exists()` with default options: only an absent field fails. -/
def existsCheck (v : Option JVal) : Bool :=
  v.isSome

/-- `exists({checkFalsy: true})`: present and truthy. -/
def existsFalsyCheck : Option JVal → Bool
  | none => false
  | some v => truthy v

/-- express-validator `isString`: the raw value is a string. -/
def isStringCheck : Option JVal → Bool
  | some (.str _) => true
  | _ => false

/-- validator.js `isLength({min})` on the string conversion; its length
count (UTF-16 length adjusted for surrogate pairs) coincides with the
code-point count used by `String.length`. -/
def isLengthMinCheck (v : Option JVal) (min : Nat) : Bool :=
  decide (min ≤ (jsStringOpt v).length)

/-- `isFloat({gt: 0})` followed by the comparison: the string conversion is
a well-formed float literal whose value is strictly positive. -/
def isFloatGt0Check (v : Option JVal) : Bool :=
  match v with
  | none => false
  | some x =>
    match parseFloatStrict (jsString x) with
    | some q => decide (0 < q)
    | none => false

/-- The fixed category enumeration of `isIn` (server.js line 66). -/
def categoryEnum : List String :=
  ["appetizer", "entree", "dessert", "beverage"]

/-- validator.js `isIn` on the string conversion. -/
def isInCategoryCheck (v : Option JVal) : Bool :=
  decide (jsStringOpt v ∈ categoryEnum)

/-- express-validator `isArray({min: 1})`: the raw value is an array with
at least one element. -/
def isArrayMin1Check : Option JVal → Bool
  | some (.arr xs) => !xs.isEmpty
  | _ => false

/-- validator.js `isBoolean` with default (non-loose) options on the string
conversion. -/
def isBooleanCheck (v : Option JVal) : Bool :=
  decide (jsStringOpt v ∈ ["true", "false", "0", "1"])

/-- ASCII lowercasing, as the case-insensitive `/^false$/i` test needs. -/
def lowerStr (s : String) : String :=
  String.mk (s.toList.map Char.toLower)

/-- validator.js `toBoolean` sanitizer with default (non-strict) options:
everything except `"0"`, `""` and case-insensitive `"false"` becomes
true. -/
def jsToBool (v : JVal) : Bool :=
  let s := jsString v
  !(s = "0" || s = "" || lowerStr s = "false")

/-- Characters removed by JavaScript `String.prototype.trim` (ASCII
whitespace, line terminators and no-break space; the further exotic
Unicode space code points trimmed by JS do not bear on any claim). -/
def isJsWhitespace (c : Char) : Bool :=
  c = ' ' || c = '\t' || c = '\n' || c = '\r' ||
  c = '\x0b' || c = '\x0c' || c = '\xa0'

/-- Model of `name.trim()` / `description.trim()`: drop leading and
trailing whitespace. -/
def jsTrim (s : String) : String :=
  String.mk (((s.toList.dropWhile isJsWhitespace).reverse.dropWhile isJsWhitespace).reverse)

/-- A `{field, message}` validation error entry. -/
abbrev FieldErr := String × String

/-- One validator of a chain: an error entry unless the check passed. -/
def condErr (ok : Bool) (field msg : String) : List FieldErr :=
  if ok then [] else [(field, msg)]

/-- A parsed request body: one slot per recognized field, plus the `id`
field a client may include (the handlers never read it). -/
structure Payload where
  name : Option JVal
  description : Option JVal
  price : Option JVal
  category : Option JVal
  ingredients : Option JVal
  available : Option JVal
  id : Option JVal

/-- Chain of `body('name')` (server.js lines 48-51). -/
def nameErrors (v : Option JVal) : List FieldErr :=
  condErr (existsFalsyCheck v) "name" "name required" ++
  condErr (isStringCheck v) "name" "name must be a string" ++
  condErr (isLengthMinCheck v 3) "name" "name min 3 chars"

/-- Chain of `body('description')` (server.js lines 53-56). -/
def descriptionErrors (v : Option JVal) : List FieldErr :=
  condErr (existsFalsyCheck v) "description" "description required" ++
  condErr (isStringCheck v) "description" "description must be a string" ++
  condErr (isLengthMinCheck v 10) "description" "description min 10 chars"

/-- Chain of `body('price')` (server.js lines 58-61), validators only. -/
def priceErrors (v : Option JVal) : List FieldErr :=
  condErr (existsCheck v) "price" "price required" ++
  condErr (isFloatGt0Check v) "price" "price must be number > 0"

/-- Chain of `body('category')` (server.js lines 63-66). -/
def categoryErrors (v : Option JVal) : List FieldErr :=
  condErr (existsFalsyCheck v) "category" "category required" ++
  condErr (isStringCheck v) "category" "category must be string" ++
  condErr (isInCategoryCheck v) "category" "category must be appetizer, entree, dessert or beverage"

/-- Chain of `body('ingredients')` (server.js lines 68-70). -/
def ingredientsErrors (v : Option JVal) : List FieldErr :=
  condErr (existsCheck v) "ingredients" "ingredients required" ++
  condErr (isArrayMin1Check v) "ingredients" "ingredients must be array with at least 1 item"

/-- Chain of `body('available')` (server.js lines 72-75): `optional()`
skips the chain when the field is absent. -/
def availableErrors : Option JVal → List FieldErr
  | none => []
  | some v => condErr (isBooleanCheck (some v)) "available" "available must be boolean"

/-- All errors collected by `menuValidators`, in declaration order, as
`handleValidation` reports them via `errors.array()`. -/
def validate (p : Payload) : List FieldErr :=
  nameErrors p.name ++ descriptionErrors p.description ++ priceErrors p.price ++
  categoryErrors p.category ++ ingredientsErrors p.ingredients ++ availableErrors p.available

/-- The sanitizers of the chains (`toFloat` on price, `toBoolean` on
available) applied to the body, as express-validator persists them into
`req.body`.  `toFloat` is `parseFloat` of the string conversion; on a value
that passed `isFloat` this is the parsed number.  An `optional()` absent
field is left untouched. -/
def sanitize (p : Payload) : Payload :=
  { p with
    price := p.price.map (fun v =>
      match parseFloatStrict (jsString v) with
      | some q => .num q
      | none => v)
    available := p.available.map (fun v => .bool (jsToBool v)) }

/-- A stored menu item.  Field types reflect what the handlers store after
validation and sanitization: `id` from the integer counter, trimmed string
`name`/`description`, the parsed number `price`, the raw `ingredients`
array, and a boolean `available`. -/
structure MenuItem where
  id : Nat
  name : String
  description : String
  price : ℚ
  category : String
  ingredients : List JVal
  available : Bool

/-- Server state: the `menu` array and the `nextId` counter
(server.js lines 24-44). -/
structure ServerState where
  nextId : Nat
  menu : List MenuItem

/-- The seeded sample data (server.js lines 25-44). -/
def seedMenu : List MenuItem :=
  [ { id := 1
      name := "Classic Burger"
      description := "Beef patty with lettuce, tomato, cheese, sesame bun"
      price := mkRat 1299 100
      category := "entree"
      ingredients := [.str "beef", .str "lettuce", .str "tomato", .str "cheese", .str "bun"]
      available := true },
    { id := 2
      name := "Chocolate Lava Cake"
      description := "Warm cake with molten center + vanilla ice cream"
      price := mkRat 15 2
      category := "dessert"
      ingredients := [.str "flour", .str "cocoa", .str "eggs", .str "sugar", .str "butter"]
      available := true } ]

/-- Process start state: `nextId = 3` and the two seeded items. -/
def initState : ServerState :=
  { nextId := 3, menu := seedMenu }

/-- An HTTP response of the service, as far as the claims observe it. -/
inductive Response : Type where
  | item (status : Nat) (m : MenuItem)
  | items (ms : List MenuItem)
  | notFound
  | badRequest (errors : List FieldErr)

/-- Numeric HTTP status of a response (`notFound` carries the fixed
404 `Menu item not found` body, `badRequest` the 400 errors body). -/
def Response.status : Response → Nat
  | .item s _ => s
  | .items _ => 200
  | .notFound => 404
  | .badRequest _ => 400

/-- Projections used when the handler destructures the sanitized body;
the mismatching arms are unreachable once validation has passed. -/
def strOfJVal : JVal → String
  | .str s => s
  | _ => ""

def ratOfJVal : JVal → ℚ
  | .num q => q
  | _ => 0

def arrOfJVal : JVal → List JVal
  | .arr xs => xs
  | _ => []

/-- The item built by the POST handler (server.js lines 111-119) from the
sanitized body: trimmed name and description, the `typeof available ===
'boolean' ? available : true` default, and the assigned id. -/
def mkItem (newId : Nat) (p0 : Payload) : MenuItem :=
  let p := sanitize p0
  { id := newId
    name := jsTrim (strOfJVal (p.name.getD .null))
    description := jsTrim (strOfJVal (p.description.getD .null))
    price := ratOfJVal (p.price.getD .null)
    category := strOfJVal (p.category.getD .null)
    ingredients := arrOfJVal (p.ingredients.getD .null)
    available :=
      match p.available with
      | some (.bool b) => b
      | _ => true }

/-- The item built by the PUT handler (server.js lines 136-144): the spread
`{...menu[idx], ...}` keeps the stored id (the body `id` is never read),
and `available` falls back to the stored value when the sanitized body
value is not a boolean. -/
def updItem (old : MenuItem) (p0 : Payload) : MenuItem :=
  let p := sanitize p0
  { id := old.id
    name := jsTrim (strOfJVal (p.name.getD .null))
    description := jsTrim (strOfJVal (p.description.getD .null))
    price := ratOfJVal (p.price.getD .null)
    category := strOfJVal (p.category.getD .null)
    ingredients := arrOfJVal (p.ingredients.getD .null)
    available :=
      match p.available with
      | some (.bool b) => b
      | _ => old.available }

/-- The id comparison of the handlers: `m.id === Number(req.params.id)`.
The parsed path id is a numeric value, modelled as a rational; stored ids
are integers from the counter. -/
def idMatches (q : ℚ) (m : MenuItem) : Bool :=
  decide ((m.id : ℚ) = q)

/-- `menu.findIndex` followed by replacing `menu[idx]`: update the first
element satisfying `c` with `f`, returning the updated element and the new
list, or `none` when no element matches. -/
def updateFirst (c : MenuItem → Bool) (f : MenuItem → MenuItem) :
    List MenuItem → Option (MenuItem × List MenuItem)
  | [] => none
  | m :: ms =>
    if c m then some (f m, f m :: ms)
    else (updateFirst c f ms).map (fun r => (r.1, m :: r.2))

/-- `menu.findIndex` followed by `menu.splice(idx, 1)`: remove the first
element satisfying `c`, returning it and the remaining list. -/
def removeFirst (c : MenuItem → Bool) :
    List MenuItem → Option (MenuItem × List MenuItem)
  | [] => none
  | m :: ms =>
    if c m then some (m, ms)
    else (removeFirst c ms).map (fun r => (r.1, m :: r.2))

/-- `GET /api/menu` (server.js lines 91-93). -/
def getAll (s : ServerState) : Response :=
  .items s.menu

/-- `GET /api/menu/:id` (server.js lines 96-105): `menu.find` on the parsed
id, 404 when absent. -/
def getById (s : ServerState) (q : ℚ) : Response :=
  match s.menu.find? (idMatches q) with
  | none => .notFound
  | some m => .item 200 m

/-- `POST /api/menu` (server.js line 108): the validator chains and
`handleValidation` run first (400 with the collected errors on any
failure); the handler then appends the new item and increments the
counter, answering 201 with the created item. -/
def postMenu (s : ServerState) (p : Payload) : ServerState × Response :=
  if validate p = [] then
    ({ nextId := s.nextId + 1, menu := s.menu ++ [mkItem s.nextId p] },
      .item 201 (mkItem s.nextId p))
  else (s, .badRequest (validate p))

/-- `PUT /api/menu/:id` (server.js line 126): validation middleware first
(400 on failure, before the id is even looked up), then `findIndex` (404
when no match), then in-place replacement, answering 200 with the updated
item. -/
def putMenu (s : ServerState) (q : ℚ) (p : Payload) : ServerState × Response :=
  if validate p = [] then
    match updateFirst (idMatches q) (fun old => updItem old p) s.menu with
    | none => (s, .notFound)
    | some (u, menu2) => ({ s with menu := menu2 }, .item 200 u)
  else (s, .badRequest (validate p))

/-- `DELETE /api/menu/:id` (server.js lines 151-161): `findIndex` (404 when
no match) then `splice`, answering 200 with the removed item. -/
def deleteMenu (s : ServerState) (q : ℚ) : ServerState × Response :=
  match removeFirst (idMatches q) s.menu with
  | none => (s, .notFound)
  | some (d, menu2) => ({ s with menu := menu2 }, .item 200 d)

/-- One mutating request, for describing reachable states. -/
inductive Op : Type where
  | post (p : Payload)
  | put (q : ℚ) (p : Payload)
  | del (q : ℚ)

/-- State transition of one request, paired with the ghost list of all ids
the service has ever assigned (seeded with the sample ids 1 and 2); a
successful create appends the id it hands out. -/
def stepG : ServerState × List Nat → Op → ServerState × List Nat
  | (s, g), .post p =>
    ((postMenu s p).1, if validate p = [] then g ++ [s.nextId] else g)
  | (s, g), .put q p => ((putMenu s q p).1, g)
  | (s, g), .del q => ((deleteMenu s q).1, g)

/-- Process start, with the ghost assigned-id list. -/
def initGhost : ServerState × List Nat :=
  (initState, [1, 2])

/-- State and ghost after a sequence of mutating requests. -/
def runG (ops : List Op) : ServerState × List Nat :=
  ops.foldl stepG initGhost

/-- Server state after a sequence of mutating requests from process
start: exactly the reachable states. -/
def run (ops : List Op) : ServerState :=
  (runG ops).1

/-- All ids the service has assigned during `ops` (seed ids included). -/
def assignedIds (ops : List Op) : List Nat :=
  (runG ops).2

/-- The largest id assigned so far. -/
def maxAssigned (ops : List Op) : Nat :=
  (assignedIds ops).foldl max 0

/-- `typeof v === 'boolean'` on an optional body field: present with an
actual boolean value. -/
def isBoolVal : Option JVal → Bool
  | some (.bool _) => true
  | _ => false

/-- What actually holds of every stored item: the constraint the validators
enforced on the submitted value.  For `name` and `description` the length
bound was checked on the submitted string, which is trimmed afterwards, so
the stored string is only known to be the trim of a long-enough string. -/
def ItemWasValid (m : MenuItem) : Prop :=
  (∃ s0, 3 ≤ s0.length ∧ m.name = jsTrim s0) ∧
  (∃ s0, 10 ≤ s0.length ∧ m.description = jsTrim s0) ∧
  0 < m.price ∧ m.category ∈ categoryEnum ∧ m.ingredients ≠ []

/-- Invariant of reachable server states: stored ids are pairwise distinct,
every stored item passed validation, and ids stay below the counter. -/
def GoodState (s : ServerState) : Prop :=
  (s.menu.map MenuItem.id).Nodup ∧ ∀ m ∈ s.menu, ItemWasValid m ∧ m.id < s.nextId

/-- Invariant tying the state to the ghost assigned-id list: the counter is
one above the largest assigned id, which bounds all assigned ids. -/
def GoodG : ServerState × List Nat → Prop
  | (s, g) => GoodState s ∧ s.nextId = g.foldl max 0 + 1 ∧ ∀ a ∈ g, a < s.nextId

/-- The valid create example of spec section 8: the Veggie Wrap. -/
def wrapPayload : Payload :=
  { name := some (.str "Veggie Wrap")
    description := some (.str "Grilled veggies in a wrap")
    price := some (.num (mkRat 17 2))
    category := some (.str "entree")
    ingredients := some (.arr [.str "lettuce", .str "pepper"])
    available := none
    id := none }

/-- The invalid create example of spec section 8: five rule violations. -/
def invalidExamplePayload : Payload :=
  { name := some (.str "Hi")
    description := some (.str "short")
    price := some (.num (-1))
    category := some (.str "snack")
    ingredients := some (.arr [])
    available := none
    id := none }

/-- A request body with no recognized field at all. -/
def emptyPayload : Payload :=
  { name := none, description := none, price := none, category := none,
    ingredients := none, available := none, id := none }

/-- A payload that passes every validator although its name trims to the
two-character string `ab`: the length check runs on the untrimmed
three-character string. -/
def paddedNamePayload : Payload :=
  { wrapPayload with name := some (.str "ab ") }

/-- A payload whose `available` field is the string `"false"`: not a
boolean, yet accepted by `isBoolean` and coerced by `toBoolean`. -/
def stringFalsePayload : Payload :=
  { wrapPayload with available := some (.str "false") }

/-- The Veggie Wrap payload with its required `name` field missing. -/
def noNamePayload : Payload :=
  { wrapPayload with name := none }

theorem jsString_str (s : String) : jsString (.str s) = s := rfl

theorem condErr_eq_nil {ok : Bool} {f m : String} :
    condErr ok f m = [] ↔ ok = true := by
  cases ok <;> simp [condErr]

theorem nameErrors_eq_nil {v : Option JVal} (h : nameErrors v = []) :
    ∃ s, v = some (JVal.str s) ∧ 3 ≤ s.length := by
  simp only [nameErrors, List.append_eq_nil, condErr_eq_nil] at h
  obtain ⟨⟨h1, h2⟩, h3⟩ := h
  rcases v with _ | x
  · simp [isStringCheck] at h2
  · rcases x with s | q | b | _ | xs
    · refine ⟨s, rfl, ?_⟩
      simpa [isLengthMinCheck, jsStringOpt, jsString_str] using h3
    all_goals simp [isStringCheck] at h2

theorem descriptionErrors_eq_nil {v : Option JVal} (h : descriptionErrors v = []) :
    ∃ s, v = some (JVal.str s) ∧ 10 ≤ s.length := by
  simp only [descriptionErrors, List.append_eq_nil, condErr_eq_nil] at h
  obtain ⟨⟨h1, h2⟩, h3⟩ := h
  rcases v with _ | x
  · simp [isStringCheck] at h2
  · rcases x with s | q | b | _ | xs
    · refine ⟨s, rfl, ?_⟩
      simpa [isLengthMinCheck, jsStringOpt, jsString_str] using h3
    all_goals simp [isStringCheck] at h2

theorem priceErrors_eq_nil {v : Option JVal} (h : priceErrors v = []) :
    ∃ x q, v = some x ∧ parseFloatStrict (jsString x) = some q ∧ 0 < q := by
  simp only [priceErrors, List.append_eq_nil, condErr_eq_nil] at h
  obtain ⟨h1, h2⟩ := h
  rcases v with _ | x
  · simp [existsCheck] at h1
  · refine ⟨x, ?_⟩
    rcases hp : parseFloatStrict (jsString x) with _ | q
    · simp [isFloatGt0Check, hp] at h2
    · exact ⟨q, rfl, rfl, by simpa [isFloatGt0Check, hp] using h2⟩

theorem categoryErrors_eq_nil {v : Option JVal} (h : categoryErrors v = []) :
    ∃ c, v = some (JVal.str c) ∧ c ∈ categoryEnum := by
  simp only [categoryErrors, List.append_eq_nil, condErr_eq_nil] at h
  obtain ⟨⟨h1, h2⟩, h3⟩ := h
  rcases v with _ | x
  · simp [isStringCheck] at h2
  · rcases x with s | q | b | _ | xs
    · refine ⟨s, rfl, ?_⟩
      simpa [isInCategoryCheck, jsStringOpt, jsString_str] using h3
    all_goals simp [isStringCheck] at h2

theorem ingredientsErrors_eq_nil {v : Option JVal} (h : ingredientsErrors v = []) :
    ∃ xs, v = some (JVal.arr xs) ∧ xs ≠ [] := by
  simp only [ingredientsErrors, List.append_eq_nil, condErr_eq_nil] at h
  obtain ⟨h1, h2⟩ := h
  rcases v with _ | x
  · simp [existsCheck] at h1
  · rcases x with s | q | b | _ | xs
    all_goals simp [isArrayMin1Check] at h2
    exact ⟨xs, rfl, by simpa using h2⟩

theorem validate_fields {p : Payload} (h : validate p = []) :
    (∃ s, p.name = some (JVal.str s) ∧ 3 ≤ s.length) ∧
    (∃ s, p.description = some (JVal.str s) ∧ 10 ≤ s.length) ∧
    (∃ x q, p.price = some x ∧ parseFloatStrict (jsString x) = some q ∧ 0 < q) ∧
    (∃ c, p.category = some (JVal.str c) ∧ c ∈ categoryEnum) ∧
    (∃ xs, p.ingredients = some (JVal.arr xs) ∧ xs ≠ []) := by
  simp only [validate, List.append_eq_nil] at h
  obtain ⟨⟨⟨⟨⟨h1, h2⟩, h3⟩, h4⟩, h5⟩, h6⟩ := h
  exact ⟨nameErrors_eq_nil h1, descriptionErrors_eq_nil h2, priceErrors_eq_nil h3,
    categoryErrors_eq_nil h4, ingredientsErrors_eq_nil h5⟩

theorem mkItem_valid (n : Nat) (p : Payload) (h : validate p = []) :
    ItemWasValid (mkItem n p) := by
  obtain ⟨⟨s, hn, hs⟩, ⟨d, hd, hds⟩, ⟨x, q, hp, hpq, hq⟩, ⟨c, hc, hcm⟩, ⟨xs, hx, hxs⟩⟩ :=
    validate_fields h
  refine ⟨⟨s, hs, ?_⟩, ⟨d, hds, ?_⟩, ?_, ?_, ?_⟩ <;>
    simp [mkItem, sanitize, hn, hd, hp, hpq, hc, hx, strOfJVal, ratOfJVal, arrOfJVal,
      hq, hcm, hxs, jsString_str]

theorem updItem_valid (old : MenuItem) (p : Payload) (h : validate p = []) :
    ItemWasValid (updItem old p) := by
  obtain ⟨⟨s, hn, hs⟩, ⟨d, hd, hds⟩, ⟨x, q, hp, hpq, hq⟩, ⟨c, hc, hcm⟩, ⟨xs, hx, hxs⟩⟩ :=
    validate_fields h
  refine ⟨⟨s, hs, ?_⟩, ⟨d, hds, ?_⟩, ?_, ?_, ?_⟩ <;>
    simp [updItem, sanitize, hn, hd, hp, hpq, hc, hx, strOfJVal, ratOfJVal, arrOfJVal,
      hq, hcm, hxs, jsString_str]

theorem mkItem_id (n : Nat) (p : Payload) : (mkItem n p).id = n := rfl

theorem updItem_id (old : MenuItem) (p : Payload) : (updItem old p).id = old.id := rfl

theorem updateFirst_eq_none_iff {c : MenuItem → Bool} {f : MenuItem → MenuItem}
    {l : List MenuItem} :
    updateFirst c f l = none ↔ ∀ m ∈ l, c m = false := by
  induction l with
  | nil => simp [updateFirst]
  | cons a as ih =>
    by_cases hca : c a <;> simp [updateFirst, hca, ih]

theorem updateFirst_eq_some {c : MenuItem → Bool} {f : MenuItem → MenuItem}
    {l : List MenuItem} {u : MenuItem} {l2 : List MenuItem}
    (h : updateFirst c f l = some (u, l2)) :
    ∃ l1 m l3, l = l1 ++ m :: l3 ∧ c m = true ∧ (∀ x ∈ l1, c x = false) ∧
      u = f m ∧ l2 = l1 ++ f m :: l3 := by
  induction l generalizing u l2 with
  | nil => simp [updateFirst] at h
  | cons a as ih =>
    by_cases hca : c a
    · simp only [updateFirst, hca, if_pos, Option.some.injEq, Prod.mk.injEq] at h
      exact ⟨[], a, as, by simp, hca, by simp, h.1.symm, by simp [h.2.symm]⟩
    · simp only [updateFirst, hca, if_neg, Option.map_eq_some', Bool.false_eq_true,
        not_false_eq_true] at h
      obtain ⟨⟨u0, l0⟩, hr, heq⟩ := h
      obtain ⟨hu0, hl0⟩ : u0 = u ∧ a :: l0 = l2 := by simpa using heq
      subst hu0
      subst hl0
      obtain ⟨l1, m, l3, hl, hm, hl1, hu, hl2⟩ := ih hr
      refine ⟨a :: l1, m, l3, by simp [hl], hm, ?_, hu, by simp [hl2]⟩
      intro x hx
      rcases List.mem_cons.mp hx with rfl | hx
      · simpa using hca
      · exact hl1 x hx

theorem removeFirst_eq_none_iff {c : MenuItem → Bool} {l : List MenuItem} :
    removeFirst c l = none ↔ ∀ m ∈ l, c m = false := by
  induction l with
  | nil => simp [removeFirst]
  | cons a as ih =>
    by_cases hca : c a <;> simp [removeFirst, hca, ih]

theorem removeFirst_eq_some {c : MenuItem → Bool}
    {l : List MenuItem} {d : MenuItem} {l2 : List MenuItem}
    (h : removeFirst c l = some (d, l2)) :
    ∃ l1 l3, l = l1 ++ d :: l3 ∧ c d = true ∧ (∀ x ∈ l1, c x = false) ∧
      l2 = l1 ++ l3 := by
  induction l generalizing d l2 with
  | nil => simp [removeFirst] at h
  | cons a as ih =>
    by_cases hca : c a
    · simp only [removeFirst, hca, if_pos, Option.some.injEq, Prod.mk.injEq] at h
      exact ⟨[], as, by simp [h.1.symm], h.1 ▸ hca, by simp, by simp [h.2.symm]⟩
    · simp only [removeFirst, hca, if_neg, Option.map_eq_some', Bool.false_eq_true,
        not_false_eq_true] at h
      obtain ⟨⟨d0, l0⟩, hr, heq⟩ := h
      obtain ⟨hd0, hl0⟩ : d0 = d ∧ a :: l0 = l2 := by simpa using heq
      subst hd0
      subst hl0
      obtain ⟨l1, l3, hl, hm, hl1, hl2⟩ := ih hr
      refine ⟨a :: l1, l3, by simp [hl], hm, ?_, by simp [hl2]⟩
      intro x hx
      rcases List.mem_cons.mp hx with rfl | hx
      · simpa using hca
      · exact hl1 x hx

theorem goodG_init : GoodG initGhost := by
  refine ⟨⟨by decide, ?_⟩, by decide, by decide⟩
  intro m hm
  simp only [initState, seedMenu, List.mem_cons, List.not_mem_nil, or_false] at hm
  rcases hm with rfl | rfl
  · exact ⟨⟨⟨"Classic Burger", by decide, by decide⟩,
      ⟨"Beef patty with lettuce, tomato, cheese, sesame bun", by decide, by decide⟩,
      by decide, by decide, List.cons_ne_nil _ _⟩, by decide⟩
  · exact ⟨⟨⟨"Chocolate Lava Cake", by decide, by decide⟩,
      ⟨"Warm cake with molten center + vanilla ice cream", by decide, by decide⟩,
      by decide, by decide, List.cons_ne_nil _ _⟩, by decide⟩

theorem goodG_step {sg : ServerState × List Nat} (h : GoodG sg) (op : Op) :
    GoodG (stepG sg op) := by
  obtain ⟨s, g⟩ := sg
  obtain ⟨⟨hnd, hitems⟩, hmax, hlt⟩ := h
  cases op with
  | post p =>
    by_cases hv : validate p = []
    · simp only [stepG, postMenu, hv, if_pos, if_true]
      refine ⟨⟨?_, ?_⟩, ?_, ?_⟩
      · simp only [List.map_append, List.map_cons, List.map_nil, mkItem_id]
        rw [List.nodup_append]
        refine ⟨hnd, by simp, ?_⟩
        intro a ha hb
        simp only [List.mem_singleton] at hb
        obtain ⟨m, hm, hid⟩ := List.mem_map.mp ha
        exact absurd (hid.trans hb) (Nat.ne_of_lt (hitems m hm).2)
      · intro m hm
        rcases List.mem_append.mp hm with hm | hm
        · exact ⟨(hitems m hm).1, Nat.lt_succ_of_lt (hitems m hm).2⟩
        · simp only [List.mem_singleton] at hm
          subst hm
          exact ⟨mkItem_valid _ _ hv, by simp [mkItem_id]⟩
      · show s.nextId + 1 = (g ++ [s.nextId]).foldl max 0 + 1
        simp only [List.foldl_append, List.foldl_cons, List.foldl_nil]
        omega
      · intro a ha
        show a < s.nextId + 1
        rcases List.mem_append.mp ha with ha | ha
        · exact Nat.lt_succ_of_lt (hlt a ha)
        · simp only [List.mem_singleton] at ha
          omega
    · simp only [stepG, postMenu, hv, if_neg, if_false]
      exact ⟨⟨hnd, hitems⟩, hmax, hlt⟩
  | put q p =>
    by_cases hv : validate p = []
    · rcases hu : updateFirst (idMatches q) (fun old => updItem old p) s.menu with _ | ⟨u, menu2⟩
      · simp only [stepG, putMenu, hv, if_pos, hu]
        exact ⟨⟨hnd, hitems⟩, hmax, hlt⟩
      · obtain ⟨l1, m, l3, hl, hm, hl1, hueq, hl2⟩ := updateFirst_eq_some hu
        simp only [stepG, putMenu, hv, if_pos, hu]
        have hmapeq : menu2.map MenuItem.id = s.menu.map MenuItem.id := by
          simp [hl, hl2, updItem_id]
        refine ⟨⟨by simpa [hmapeq] using hnd, ?_⟩, hmax, hlt⟩
        intro x hx
        rw [hl2] at hx
        have hmmem : m ∈ s.menu := by
          rw [hl]; exact List.mem_append_right _ (List.mem_cons_self _ _)
        rcases List.mem_append.mp hx with hx | hx
        · have : x ∈ s.menu := by
            rw [hl]; exact List.mem_append_left _ hx
          exact hitems x this
        · rcases List.mem_cons.mp hx with rfl | hx
          · exact ⟨updItem_valid _ _ hv, by simpa [updItem_id] using (hitems m hmmem).2⟩
          · have : x ∈ s.menu := by
              rw [hl]; exact List.mem_append_right _ (List.mem_cons_of_mem _ hx)
            exact hitems x this
    · simp only [stepG, putMenu, hv, if_neg, if_false]
      exact ⟨⟨hnd, hitems⟩, hmax, hlt⟩
  | del q =>
    rcases hr : removeFirst (idMatches q) s.menu with _ | ⟨d, menu2⟩
    · simp only [stepG, deleteMenu, hr]
      exact ⟨⟨hnd, hitems⟩, hmax, hlt⟩
    · obtain ⟨l1, l3, hl, hm, hl1, hl2⟩ := removeFirst_eq_some hr
      simp only [stepG, deleteMenu, hr]
      have hsub : List.Sublist (menu2.map MenuItem.id) (s.menu.map MenuItem.id) := by
        rw [hl, hl2]
        exact List.Sublist.map _ ((List.sublist_cons_self _ _).append_left l1)
      refine ⟨⟨hnd.sublist hsub, ?_⟩, hmax, hlt⟩
      intro x hx
      rw [hl2] at hx
      have : x ∈ s.menu := by
        rw [hl]
        rcases List.mem_append.mp hx with hx | hx
        · exact List.mem_append_left _ hx
        · exact List.mem_append_right _ (List.mem_cons_of_mem _ hx)
      exact hitems x this

theorem goodG_foldl (ops : List Op) :
    ∀ sg, GoodG sg → GoodG (ops.foldl stepG sg) := by
  induction ops with
  | nil => intro sg h; simpa using h
  | cons op ops ih =>
    intro sg h
    exact ih _ (goodG_step h op)

theorem goodG_run (ops : List Op) : GoodG (runG ops) :=
  goodG_foldl ops initGhost goodG_init

theorem goodState_run (ops : List Op) : GoodState (run ops) :=
  (goodG_run ops).1

theorem run_nextId (ops : List Op) :
    (run ops).nextId = maxAssigned ops + 1 :=
  (goodG_run ops).2.1

theorem assigned_lt_nextId (ops : List Op) :
    ∀ a ∈ assignedIds ops, a < (run ops).nextId :=
  (goodG_run ops).2.2

theorem idMatches_eq_true_iff {q : ℚ} {m : MenuItem} :
    idMatches q m = true ↔ (m.id : ℚ) = q := by
  simp [idMatches]

theorem idMatches_eq_false_of_ne {q : ℚ} {m : MenuItem} (h : (m.id : ℚ) ≠ q) :
    idMatches q m = false := by
  simp [idMatches, h]

theorem idMatches_nonint {q : ℚ} (hq : q.den ≠ 1) (m : MenuItem) :
    idMatches q m = false := by
  refine idMatches_eq_false_of_ne fun h => hq ?_
  rw [← h, Rat.den_natCast]

theorem find?_append_of_none {l1 l2 : List MenuItem} {c : MenuItem → Bool}
    (h : ∀ m ∈ l1, c m = false) :
    (l1 ++ l2).find? c = l2.find? c := by
  induction l1 with
  | nil => simp
  | cons a as ih =>
    have ha := h a (List.mem_cons_self a as)
    simp only [List.cons_append, List.find?_cons, ha]
    exact ih fun m hm => h m (List.mem_cons_of_mem a hm)

/-- **C1, counterexample.**  The claim says a PUT whose path id matches no
stored item answers 404 and never 400, whatever the body.  On the seeded
state, a PUT to the unknown id 999 with an empty body answers 400, because
the validation middleware runs before the existence check. -/
theorem put_unknown_id_invalid_body_answers_400 :
    (∀ m ∈ initState.menu, idMatches 999 m = false) ∧
    (putMenu initState 999 emptyPayload).2.status = 400 ∧
    ¬ (putMenu initState 999 emptyPayload).2.status = 404 := by
  refine ⟨by decide, by decide, by decide⟩

/-- **C1, amended.**  A PUT whose path id matches no stored item's id
answers 404 with the state unchanged, provided the body passes the
validation rule set; a body that fails validation is answered 400 by the
validation middleware before the existence check runs. -/
theorem put_unknown_id_valid_body_404 (s : ServerState) (q : ℚ) (p : Payload)
    (hid : ∀ m ∈ s.menu, idMatches q m = false) :
    (validate p = [] → putMenu s q p = (s, Response.notFound)) ∧
    (validate p ≠ [] → putMenu s q p = (s, Response.badRequest (validate p))) := by
  constructor
  · intro hv
    have hnone : updateFirst (idMatches q) (fun old => updItem old p) s.menu = none :=
      updateFirst_eq_none_iff.mpr hid
    simp [putMenu, hv, hnone]
  · intro hv
    simp [putMenu, hv]

theorem put_unknown_id_valid_body_404_witness :
    (∀ m ∈ initState.menu, idMatches 999 m = false) ∧
    ((validate wrapPayload = [] → putMenu initState 999 wrapPayload = (initState, Response.notFound)) ∧
      (validate wrapPayload ≠ [] →
        putMenu initState 999 wrapPayload = (initState, Response.badRequest (validate wrapPayload)))) :=
  ⟨by decide, put_unknown_id_valid_body_404 initState 999 wrapPayload (by decide)⟩

/-- **C4.**  The invalid example body (name too short, description too
short, price not positive, category outside the enumeration, empty
ingredients) is rejected with 400, the state unchanged, and exactly the
five expected error entries, one per violated rule, all collected. -/
theorem invalid_example_five_errors :
    postMenu initState invalidExamplePayload =
      (initState, Response.badRequest
        [("name", "name min 3 chars"),
         ("description", "description min 10 chars"),
         ("price", "price must be number > 0"),
         ("category", "category must be appetizer, entree, dessert or beverage"),
         ("ingredients", "ingredients must be array with at least 1 item")]) ∧
    (validate invalidExamplePayload).length = 5 :=
  ⟨rfl, by decide⟩

theorem nameErrors_none_ne_nil : nameErrors none ≠ [] := by decide

theorem descriptionErrors_none_ne_nil : descriptionErrors none ≠ [] := by decide

theorem priceErrors_none_ne_nil : priceErrors none ≠ [] := by decide

theorem categoryErrors_none_ne_nil : categoryErrors none ≠ [] := by decide

theorem ingredientsErrors_none_ne_nil : ingredientsErrors none ≠ [] := by decide

theorem validate_ne_nil_of_missing {p : Payload}
    (h : p.name = none ∨ p.description = none ∨ p.price = none ∨
      p.category = none ∨ p.ingredients = none) :
    validate p ≠ [] := by
  intro hv
  simp only [validate, List.append_eq_nil] at hv
  obtain ⟨⟨⟨⟨⟨h1, h2⟩, h3⟩, h4⟩, h5⟩, h6⟩ := hv
  rcases h with h | h | h | h | h
  · exact nameErrors_none_ne_nil (h ▸ h1)
  · exact descriptionErrors_none_ne_nil (h ▸ h2)
  · exact priceErrors_none_ne_nil (h ▸ h3)
  · exact categoryErrors_none_ne_nil (h ▸ h4)
  · exact ingredientsErrors_none_ne_nil (h ▸ h5)

/-- **C5.**  A create or update whose body is missing any of the five
required fields is answered 400 and leaves the collection (indeed the whole
state) exactly as it was. -/
theorem missing_field_rejected_state_unchanged (s : ServerState) (q : ℚ) (p : Payload)
    (h : p.name = none ∨ p.description = none ∨ p.price = none ∨
      p.category = none ∨ p.ingredients = none) :
    postMenu s p = (s, Response.badRequest (validate p)) ∧
    (postMenu s p).2.status = 400 ∧
    putMenu s q p = (s, Response.badRequest (validate p)) ∧
    (putMenu s q p).2.status = 400 := by
  have hv := validate_ne_nil_of_missing h
  refine ⟨?_, ?_, ?_, ?_⟩ <;> simp [postMenu, putMenu, hv, Response.status]

theorem missing_field_rejected_state_unchanged_witness :
    noNamePayload.name = none ∧
    (postMenu initState noNamePayload = (initState, Response.badRequest (validate noNamePayload)) ∧
      (postMenu initState noNamePayload).2.status = 400 ∧
      putMenu initState 1 noNamePayload = (initState, Response.badRequest (validate noNamePayload)) ∧
      (putMenu initState 1 noNamePayload).2.status = 400) :=
  ⟨rfl, missing_field_rejected_state_unchanged initState 1 noNamePayload (Or.inl rfl)⟩

/-- **C2, counterexample.**  The claim says every stored item has a name of
length at least 3 at all times.  The payload with name `"ab "` passes
validation (the length check runs before trimming), and after the create
the stored item's name is the two-character string `"ab"`. -/
theorem stored_name_below_minimum_after_create :
    validate paddedNamePayload = [] ∧
    (run [Op.post paddedNamePayload]).menu.map MenuItem.name =
      ["Classic Burger", "Chocolate Lava Cake", "ab"] ∧
    ¬ (3 ≤ ("ab" : String).length) := by
  refine ⟨by decide, by decide, by decide⟩

/-- **C2, amended.**  In every reachable state, stored ids are pairwise
distinct and every stored item satisfies the constraints the validators
checked on the submitted values: price strictly positive, category in the
enumeration, ingredients nonempty, and name/description equal to the trim
of a string of length at least 3 resp. 10 (the stored, trimmed string
itself may be shorter; `available` is a boolean by construction). -/
theorem reachable_state_invariant (ops : List Op) :
    ((run ops).menu.map MenuItem.id).Nodup ∧
    ∀ m ∈ (run ops).menu,
      (∃ s0, 3 ≤ s0.length ∧ m.name = jsTrim s0) ∧
      (∃ s0, 10 ≤ s0.length ∧ m.description = jsTrim s0) ∧
      0 < m.price ∧ m.category ∈ categoryEnum ∧ m.ingredients ≠ [] := by
  obtain ⟨⟨hnd, hitems⟩, _, _⟩ := goodG_run ops
  exact ⟨hnd, fun m hm => (hitems m hm).1⟩

/-- **C3, counterexample.**  The claim says the created item's `available`
is true whenever the payload's `available` was absent or not a boolean.
The string value `"false"` is not a boolean, passes the `isBoolean`
validator, and is coerced by `toBoolean`, so the created item stores
`available = false`. -/
theorem available_string_false_stored_false :
    validate stringFalsePayload = [] ∧
    isBoolVal stringFalsePayload.available = false ∧
    (mkItem initState.nextId stringFalsePayload).available = false ∧
    (postMenu initState stringFalsePayload).2 =
      Response.item 201 (mkItem initState.nextId stringFalsePayload) := by
  refine ⟨by decide, by decide, by decide, rfl⟩

/-- **C3, amended.**  For a create that passes validation: `available`
defaults to true when the field is absent; a present value (which must
have passed `isBoolean`) is stored as its `toBoolean` coercion; in
particular an actual boolean is stored as given. -/
theorem available_default_and_coercion (s : ServerState) (p : Payload)
    (h : validate p = []) :
    (postMenu s p).2 = Response.item 201 (mkItem s.nextId p) ∧
    (p.available = none → (mkItem s.nextId p).available = true) ∧
    (∀ v, p.available = some v → (mkItem s.nextId p).available = jsToBool v) ∧
    (∀ b, p.available = some (JVal.bool b) → (mkItem s.nextId p).available = b) := by
  refine ⟨by simp [postMenu, h], ?_, ?_, ?_⟩
  · intro ha
    simp [mkItem, sanitize, ha]
  · intro v ha
    simp [mkItem, sanitize, ha]
  · intro b ha
    simp only [mkItem, sanitize, ha, Option.map_some']
    cases b <;> decide

theorem available_default_and_coercion_witness :
    validate wrapPayload = [] ∧
    ((postMenu initState wrapPayload).2 =
        Response.item 201 (mkItem initState.nextId wrapPayload) ∧
      (wrapPayload.available = none → (mkItem initState.nextId wrapPayload).available = true) ∧
      (∀ v, wrapPayload.available = some v →
        (mkItem initState.nextId wrapPayload).available = jsToBool v) ∧
      (∀ b, wrapPayload.available = some (JVal.bool b) →
        (mkItem initState.nextId wrapPayload).available = b)) :=
  ⟨by decide, available_default_and_coercion initState wrapPayload (by decide)⟩

/-- **C6.**  A valid create in any reachable state grows the collection by
exactly one, appending the new item at the end; the returned id was never
assigned before and equals the maximum previously assigned id plus one. -/
theorem create_appends_fresh_max_id (ops : List Op) (p : Payload)
    (h : validate p = []) :
    (postMenu (run ops) p).1.menu.length = (run ops).menu.length + 1 ∧
    (postMenu (run ops) p).1.menu = (run ops).menu ++ [mkItem (run ops).nextId p] ∧
    (postMenu (run ops) p).2 = Response.item 201 (mkItem (run ops).nextId p) ∧
    (mkItem (run ops).nextId p).id ∉ assignedIds ops ∧
    (mkItem (run ops).nextId p).id = maxAssigned ops + 1 := by
  have hnz := run_nextId ops
  have hal := assigned_lt_nextId ops
  refine ⟨by simp [postMenu, h], by simp [postMenu, h], by simp [postMenu, h], ?_, ?_⟩
  · rw [mkItem_id]
    intro hmem
    exact lt_irrefl _ (hal _ hmem)
  · rw [mkItem_id, hnz]

theorem create_appends_fresh_max_id_witness :
    validate wrapPayload = [] ∧
    (mkItem (run []).nextId wrapPayload).id = 3 ∧
    ((postMenu (run []) wrapPayload).1.menu.length = (run []).menu.length + 1 ∧
      (postMenu (run []) wrapPayload).1.menu =
        (run []).menu ++ [mkItem (run []).nextId wrapPayload] ∧
      (postMenu (run []) wrapPayload).2 =
        Response.item 201 (mkItem (run []).nextId wrapPayload) ∧
      (mkItem (run []).nextId wrapPayload).id ∉ assignedIds [] ∧
      (mkItem (run []).nextId wrapPayload).id = maxAssigned [] + 1) :=
  ⟨by decide, by decide, create_appends_fresh_max_id [] wrapPayload (by decide)⟩

/-- **C7.**  Round-trip: after a valid create in any reachable state,
fetching the returned id succeeds and answers exactly the created item
(the stored trimmed and coerced values). -/
theorem create_then_fetch_roundtrip (ops : List Op) (p : Payload)
    (h : validate p = []) :
    (postMenu (run ops) p).2 = Response.item 201 (mkItem (run ops).nextId p) ∧
    getById (postMenu (run ops) p).1 ((mkItem (run ops).nextId p).id : ℚ) =
      Response.item 200 (mkItem (run ops).nextId p) := by
  obtain ⟨hnd, hitems⟩ := goodState_run ops
  have hfalse : ∀ m ∈ (run ops).menu,
      idMatches ((mkItem (run ops).nextId p).id : ℚ) m = false := by
    intro m hm
    rw [mkItem_id]
    refine idMatches_eq_false_of_ne ?_
    intro heq
    exact absurd (Nat.cast_inj.mp heq) (Nat.ne_of_lt (hitems m hm).2)
  have hfind : (((run ops).menu ++ [mkItem (run ops).nextId p]).find?
      (idMatches ((mkItem (run ops).nextId p).id : ℚ))) =
      some (mkItem (run ops).nextId p) := by
    rw [find?_append_of_none hfalse]
    simp [List.find?_cons, idMatches]
  refine ⟨by simp [postMenu, h], ?_⟩
  simp only [postMenu, h, if_pos, if_true]
  simp [getById, hfind]

/-- **C8.**  Deleting a stored id answers 200 with exactly the removed
item; the remaining collection is the original with that one occurrence
removed, all other items untouched and in order; and deleting the same id
again answers 404 with the state unchanged. -/
theorem delete_removes_exactly_that_item (ops : List Op) (n : Nat)
    (h : n ∈ (run ops).menu.map MenuItem.id) :
    ∃ l1 m l3,
      (run ops).menu = l1 ++ m :: l3 ∧ m.id = n ∧
      deleteMenu (run ops) (n : ℚ) =
        ({ run ops with menu := l1 ++ l3 }, Response.item 200 m) ∧
      deleteMenu { run ops with menu := l1 ++ l3 } (n : ℚ) =
        ({ run ops with menu := l1 ++ l3 }, Response.notFound) := by
  obtain ⟨hnd, hitems⟩ := goodState_run ops
  obtain ⟨m0, hm0mem, hm0id⟩ := List.mem_map.mp h
  have hne : removeFirst (idMatches (n : ℚ)) (run ops).menu ≠ none := by
    rw [Ne, removeFirst_eq_none_iff]
    intro hall
    have h1 : idMatches (n : ℚ) m0 = true :=
      idMatches_eq_true_iff.mpr (by rw [hm0id])
    rw [hall m0 hm0mem] at h1
    exact Bool.false_ne_true h1
  obtain ⟨r, hr⟩ := Option.ne_none_iff_exists'.mp hne
  obtain ⟨d, menu2⟩ := r
  obtain ⟨l1, l3, hl, hmatch, hl1, hl2⟩ := removeFirst_eq_some hr
  have hdid : d.id = n := Nat.cast_inj.mp (idMatches_eq_true_iff.mp hmatch)
  have hnd2 : (l1.map MenuItem.id ++ d.id :: l3.map MenuItem.id).Nodup := by
    have : (run ops).menu.map MenuItem.id =
        l1.map MenuItem.id ++ d.id :: l3.map MenuItem.id := by
      simp [hl]
    rwa [this] at hnd
  have hxne : ∀ x ∈ l1 ++ l3, x.id ≠ d.id := by
    intro x hx heq
    obtain ⟨hn1, hn2, hdisj⟩ := List.nodup_append.mp hnd2
    rcases List.mem_append.mp hx with hx | hx
    · exact hdisj (List.mem_map_of_mem _ hx) (by rw [heq]; exact List.mem_cons_self _ _)
    · exact (List.nodup_cons.mp hn2).1 (heq ▸ List.mem_map_of_mem _ hx)
  have hnone : removeFirst (idMatches (n : ℚ)) (l1 ++ l3) = none := by
    rw [removeFirst_eq_none_iff]
    intro x hx
    refine idMatches_eq_false_of_ne ?_
    intro hcast
    exact hxne x hx (by rw [Nat.cast_inj.mp hcast, hdid])
  refine ⟨l1, d, l3, hl, hdid, ?_, ?_⟩
  · simp [deleteMenu, hr, hl2]
  · simp [deleteMenu, hnone]

theorem delete_removes_exactly_that_item_witness :
    1 ∈ (run []).menu.map MenuItem.id ∧
    ∃ l1 m l3,
      (run []).menu = l1 ++ m :: l3 ∧ m.id = 1 ∧
      deleteMenu (run []) ((1 : Nat) : ℚ) =
        ({ run [] with menu := l1 ++ l3 }, Response.item 200 m) ∧
      deleteMenu { run [] with menu := l1 ++ l3 } ((1 : Nat) : ℚ) =
        ({ run [] with menu := l1 ++ l3 }, Response.notFound) :=
  ⟨by decide, delete_removes_exactly_that_item [] 1 (by decide)⟩

/-- **C9.**  Id lookup compares the numeric path id with the stored
integer ids by exact equality, so a path id that parses to a non-integer
numeric value is not specially rejected: it matches no stored id and the
get, update (with a body passing validation) and delete handlers answer
404 with the state unchanged. -/
theorem nonint_path_id_yields_not_found (s : ServerState) (q : ℚ)
    (hq : q.den ≠ 1) :
    getById s q = Response.notFound ∧
    deleteMenu s q = (s, Response.notFound) ∧
    ∀ p, validate p = [] → putMenu s q p = (s, Response.notFound) := by
  have hfalse : ∀ m ∈ s.menu, idMatches q m = false := fun m _ => idMatches_nonint hq m
  refine ⟨?_, ?_, ?_⟩
  · have hfind : s.menu.find? (idMatches q) = none :=
      List.find?_eq_none.mpr (by intro m hm; simp [hfalse m hm])
    simp [getById, hfind]
  · have hrm : removeFirst (idMatches q) s.menu = none :=
      removeFirst_eq_none_iff.mpr hfalse
    simp [deleteMenu, hrm]
  · intro p hv
    have hup : updateFirst (idMatches q) (fun old => updItem old p) s.menu = none :=
      updateFirst_eq_none_iff.mpr hfalse
    simp [putMenu, hv, hup]

theorem nonint_path_id_yields_not_found_witness :
    (mkRat 3 2).den ≠ 1 ∧
    (getById initState (mkRat 3 2) = Response.notFound ∧
      deleteMenu initState (mkRat 3 2) = (initState, Response.notFound) ∧
      ∀ p, validate p = [] → putMenu initState (mkRat 3 2) p = (initState, Response.notFound)) :=
  ⟨by decide, nonint_path_id_yields_not_found initState (mkRat 3 2) (by decide)⟩

/-- **C10.**  The update handler never reads an id from the body: replacing
the body's `id` field by anything leaves the whole outcome unchanged, and
after any update the stored ids (in order) are exactly what they were
before, so an update can never change or forge an item's id. -/
theorem update_ignores_body_id (s : ServerState) (q : ℚ) (p : Payload)
    (v : Option JVal) :
    putMenu s q { p with id := v } = putMenu s q p ∧
    (putMenu s q p).1.menu.map MenuItem.id = s.menu.map MenuItem.id := by
  constructor
  · rfl
  · by_cases hv : validate p = []
    · rcases hu : updateFirst (idMatches q) (fun old => updItem old p) s.menu with _ | ⟨u, menu2⟩
      · simp [putMenu, hv, hu]
      · obtain ⟨l1, m, l3, hl, _, _, _, hl2⟩ := updateFirst_eq_some hu
        simp only [putMenu, hv, if_pos, if_true, hu]
        rw [hl2, hl]
        simp [updItem_id]
    · simp [putMenu, hv]

theorem create_then_fetch_roundtrip_witness :
    validate wrapPayload = [] ∧
    ((postMenu (run []) wrapPayload).2 =
        Response.item 201 (mkItem (run []).nextId wrapPayload) ∧
      getById (postMenu (run []) wrapPayload).1
          ((mkItem (run []).nextId wrapPayload).id : ℚ) =
        Response.item 200 (mkItem (run []).nextId wrapPayload)) :=
  ⟨by decide, create_then_fetch_roundtrip [] wrapPayload (by decide)⟩
